import Mathlib

/-!
Verification of the retrieval-and-grounding pipeline of the repository
(backend/rag/chunker.py, backend/rag/reranker.py, backend/agents/rag_agent.py,
backend/db/qdrant_client.py) as a shallow embedding in Lean 4.

Modelling conventions, used throughout:

* The tiktoken tokenizer is external to the repository, so a sentence is
  embedded as its token sequence (`List Nat`): `encoding.encode` on a
  sentence is the identity on that sequence, and joining sentences
  concatenates their token sequences.  This matches the accounting the code
  itself performs (`chunk_text` keeps `current_tokens` equal to the sum of
  the per-sentence token counts).
* Remote collaborators (the vector index, the cross-encoder model and the
  OpenAI chat completions client) are embedded as an `Env` of oracle
  results; a raised exception of such a call is an `Except.error`.
* Python dict mutation is embedded in `rerankMut` by returning the updated
  store of all caller-passed candidate records next to the positions (into
  that store) of the records the call returns, so aliasing is visible.
-/

namespace Spec2Proof

/-! ## Chunker (backend/rag/chunker.py) -/

/-- A sentence, embedded as its tiktoken token sequence
(`self.encoding.encode(sentence)` in `chunker.py`). -/
abbrev Sentence := List Nat

/-- Chunker configuration: `chunk_size` and `chunk_overlap`
(`Chunker.__init__`, chunker.py lines 25-45). -/
structure ChunkerCfg where
  chunk_size : Nat
  chunk_overlap : Nat
deriving DecidableEq

/-- A produced chunk dict (`Chunker._create_chunk`, chunker.py lines 195-215):
`content` is the joined sentence text (as a token sequence under the
tokenizer abstraction), `token_count` the token count of the joined content,
`index` the zero-based chunk index. -/
structure Chunk where
  content : List Nat
  token_count : Nat
  index : Nat
deriving DecidableEq

/-- Total token count of a list of sentences: the sum the Python code keeps
in `current_tokens` (chunker.py lines 111-117). -/
def tokensOf (ss : List Sentence) : Nat := (ss.map List.length).sum

/-- Embeds `Chunker._create_chunk` (chunker.py lines 195-215): join the
sentences and record the token count of the joined content. -/
def createChunk (sentences : List Sentence) (index : Nat) : Chunk :=
  { content := sentences.flatten
    token_count := sentences.flatten.length
    index := index }

/-- Start offsets of Python `range(0, n, step)` for a positive `step`:
`[0, step, 2*step, ...]` with `ceil(n / step)` entries.  Also used for the
batch starts `range(0, len(points), batch_size)` in qdrant_client.py. -/
def windowStarts (n step : Nat) : List Nat :=
  (List.range ((n + step - 1) / step)).map (· * step)

/-- Embeds `Chunker._split_long_sentence` (chunker.py lines 147-165): slice
the token sequence into windows `tokens[i : i + chunk_size]` for `i` in
`range(0, len(tokens), chunk_size - chunk_overlap)`. -/
def splitLongSentence (cfg : ChunkerCfg) (sentence : Sentence) : List Sentence :=
  (windowStarts sentence.length (cfg.chunk_size - cfg.chunk_overlap)).map
    (fun i => (sentence.drop i).take cfg.chunk_size)

/-- Loop body of `Chunker._get_overlap_sentences` (chunker.py lines 180-193):
walk the reversed sentence list, taking a sentence while the running overlap
token count stays within the budget, and stop at the first sentence that
does not fit (`insert(0, sentence)` rebuilds the original order, embedded
here by consing onto the accumulator). -/
def getOverlapGo (target : Nat) : List Sentence → Nat → List Sentence → List Sentence
  | [], _, acc => acc
  | s :: rest, ov, acc =>
    if ov + s.length ≤ target then getOverlapGo target rest (ov + s.length) (s :: acc)
    else acc

/-- Embeds `Chunker._get_overlap_sentences` (chunker.py lines 167-193). -/
def getOverlapSentences (sentences : List Sentence) (target : Nat) : List Sentence :=
  getOverlapGo target sentences.reverse 0 []

/-- Main loop of `Chunker.chunk_text` (chunker.py lines 80-121) over the
remaining sentences, the working buffer `current_chunk` and the running
`chunk_index`.  `current_tokens` is kept equal to `tokensOf current` by the
Python code, so it is computed rather than passed.  Each emitted chunk is
paired with a `Bool` marking whether it came from the force-split path
(`_split_long_sentence`), which the claims need to tell apart. -/
def chunkTextLoop (cfg : ChunkerCfg) :
    List Sentence → List Sentence → Nat → List (Chunk × Bool)
  | [], current, idx =>
    if current.isEmpty then [] else [(createChunk current idx, false)]
  | s :: rest, current, idx =>
    if cfg.chunk_size < s.length then
      (if current.isEmpty then [] else [(createChunk current idx, false)]) ++
        ((splitLongSentence cfg s).enum.map
          (fun p => (createChunk [p.2] ((if current.isEmpty then idx else idx + 1) + p.1), true))) ++
        chunkTextLoop cfg rest []
          ((if current.isEmpty then idx else idx + 1) + (splitLongSentence cfg s).length)
    else if cfg.chunk_size < tokensOf current + s.length then
      (createChunk current idx, false) ::
        chunkTextLoop cfg rest (getOverlapSentences current cfg.chunk_overlap ++ [s]) (idx + 1)
    else
      chunkTextLoop cfg rest (current ++ [s]) idx

/-- Embeds `Chunker.chunk_text` (chunker.py lines 47-125) from the sentence
list onward (`_split_sentences` is pure text parsing prior to all token
accounting), with each chunk tagged by force-split origin. -/
def chunkTextTagged (cfg : ChunkerCfg) (sentences : List Sentence) : List (Chunk × Bool) :=
  chunkTextLoop cfg sentences [] 0

/-- The chunk list `Chunker.chunk_text` returns (the tags dropped). -/
def chunk_text (cfg : ChunkerCfg) (sentences : List Sentence) : List Chunk :=
  (chunkTextTagged cfg sentences).map Prod.fst

/-! ### Chunker helper lemmas -/

theorem tokensOf_nil : tokensOf [] = 0 := rfl

theorem tokensOf_cons (s : Sentence) (l : List Sentence) :
    tokensOf (s :: l) = s.length + tokensOf l := rfl

theorem tokensOf_append (a b : List Sentence) :
    tokensOf (a ++ b) = tokensOf a + tokensOf b := by
  simp [tokensOf]

theorem tokensOf_reverse (l : List Sentence) : tokensOf l.reverse = tokensOf l := by
  rw [tokensOf, List.map_reverse, List.sum_reverse, tokensOf]

theorem createChunk_token_count (sentences : List Sentence) (index : Nat) :
    (createChunk sentences index).token_count = tokensOf sentences := by
  simp [createChunk, tokensOf, List.length_flatten]

/-- Characterisation of the backward scan of `_get_overlap_sentences`: it
returns the reversal of the longest budget-respecting front part of the
reversed sentence list, prepended to the accumulator. -/
theorem getOverlapGo_spec (target : Nat) :
    ∀ (r : List Sentence) (ov : Nat) (acc : List Sentence), ov ≤ target →
      ∃ k, k ≤ r.length ∧
        getOverlapGo target r ov acc = (r.take k).reverse ++ acc ∧
        ov + tokensOf (r.take k) ≤ target ∧
        ∀ m, m ≤ r.length → ov + tokensOf (r.take m) ≤ target → m ≤ k := by
  intro r
  induction r with
  | nil =>
    intro ov acc hov
    exact ⟨0, Nat.le_refl _, rfl, by simpa [tokensOf] using hov, fun m hm _ => hm⟩
  | cons s rest ih =>
    intro ov acc hov
    by_cases h : ov + s.length ≤ target
    · obtain ⟨k, hk, heq, hsum, hmax⟩ := ih (ov + s.length) (s :: acc) h
      refine ⟨k + 1, Nat.succ_le_succ hk, ?_, ?_, ?_⟩
      · show getOverlapGo target (s :: rest) ov acc = ((s :: rest).take (k + 1)).reverse ++ acc
        rw [getOverlapGo, if_pos h, heq]
        simp [List.take_succ_cons]
      · rw [List.take_succ_cons, tokensOf_cons, ← Nat.add_assoc]
        exact hsum
      · intro m hmlen hm
        match m with
        | 0 => exact Nat.zero_le _
        | m' + 1 =>
          rw [List.take_succ_cons, tokensOf_cons, ← Nat.add_assoc] at hm
          exact Nat.succ_le_succ (hmax m' (by simpa using hmlen) hm)
    · refine ⟨0, Nat.zero_le _, ?_, by simpa [tokensOf] using hov, ?_⟩
      · show getOverlapGo target (s :: rest) ov acc = (([] : List Sentence)).reverse ++ acc
        rw [getOverlapGo, if_neg h]
        simp
      · intro m hmlen hm
        match m with
        | 0 => exact Nat.le_refl 0
        | m' + 1 =>
          rw [List.take_succ_cons, tokensOf_cons] at hm
          exact absurd (Nat.le_trans (by omega) hm) h

/-- CLAIM C4 — For every chunk boundary produced by `chunk_text`, the overlap
carried into the next chunk (`_get_overlap_sentences` applied to the
just-closed chunk's sentences, see `chunkTextLoop`) is the longest suffix of
those sentences whose cumulative token count stays at most the overlap
budget; in particular its token count never exceeds the budget.  Suffixes
are stated explicitly as `t ++ u = sentences`. -/
theorem overlap_is_longest_bounded_suffix (sentences : List Sentence) (target : Nat) :
    (∃ t, t ++ getOverlapSentences sentences target = sentences) ∧
    tokensOf (getOverlapSentences sentences target) ≤ target ∧
    (∀ u t, t ++ u = sentences → tokensOf u ≤ target →
      u.length ≤ (getOverlapSentences sentences target).length) := by
  obtain ⟨k, hk, heq, hsum, hmax⟩ :=
    getOverlapGo_spec target sentences.reverse 0 [] (Nat.zero_le target)
  have hres : getOverlapSentences sentences target = (sentences.reverse.take k).reverse := by
    simpa [getOverlapSentences] using heq
  have hlen : (getOverlapSentences sentences target).length = k := by
    rw [hres, List.length_reverse, List.length_take]
    exact Nat.min_eq_left hk
  refine ⟨⟨(sentences.reverse.drop k).reverse, ?_⟩, ?_, ?_⟩
  · rw [hres, ← List.reverse_append, List.take_append_drop, List.reverse_reverse]
  · rw [hres, tokensOf_reverse]
    omega
  · intro u t hu hsumu
    have hrev : sentences.reverse = u.reverse ++ t.reverse := by
      rw [← hu, List.reverse_append]
    have hulen : u.length ≤ sentences.reverse.length := by
      rw [hrev, List.length_append, List.length_reverse]
      omega
    have htake : sentences.reverse.take u.length = u.reverse := by
      have := List.take_left u.reverse t.reverse
      rwa [List.length_reverse, ← hrev] at this
    have hsum' : 0 + tokensOf (sentences.reverse.take u.length) ≤ target := by
      rw [htake, tokensOf_reverse, Nat.zero_add]
      exact hsumu
    have h1 := hmax u.length hulen hsum'
    omega

/-- Invariant proof for the chunking loop: while the working buffer's token
count stays within `chunk_size + chunk_overlap`, every chunk the loop emits
outside the force-split path stays within `chunk_size + chunk_overlap`. -/
theorem chunkTextLoop_bound (cfg : ChunkerCfg) :
    ∀ (rest current : List Sentence) (idx : Nat),
      tokensOf current ≤ cfg.chunk_size + cfg.chunk_overlap →
      ∀ p ∈ chunkTextLoop cfg rest current idx,
        p.2 = false → p.1.token_count ≤ cfg.chunk_size + cfg.chunk_overlap := by
  intro rest
  induction rest with
  | nil =>
    intro current idx hcur p hp _
    rw [chunkTextLoop] at hp
    by_cases hc : current.isEmpty
    · simp [hc] at hp
    · rw [if_neg hc] at hp
      rcases List.mem_singleton.mp hp with rfl
      rw [createChunk_token_count]
      exact hcur
  | cons s rest ih =>
    intro current idx hcur p hp hfalse
    rw [chunkTextLoop] at hp
    by_cases hlong : cfg.chunk_size < s.length
    · rw [if_pos hlong] at hp
      rcases List.mem_append.mp hp with hp' | hp'
      · rcases List.mem_append.mp hp' with hp'' | hp''
        · by_cases hc : current.isEmpty
          · simp [hc] at hp''
          · rw [if_neg hc] at hp''
            rcases List.mem_singleton.mp hp'' with rfl
            rw [createChunk_token_count]
            exact hcur
        · obtain ⟨q, _, hq⟩ := List.mem_map.mp hp''
          rw [← hq] at hfalse
          simp at hfalse
      · exact ih [] _ (by simp [tokensOf]) p hp' hfalse
    · rw [if_neg hlong] at hp
      by_cases hfit : cfg.chunk_size < tokensOf current + s.length
      · rw [if_pos hfit] at hp
        rcases List.mem_cons.mp hp with rfl | hp'
        · rw [createChunk_token_count]
          exact hcur
        · refine ih _ _ ?_ p hp' hfalse
          rw [tokensOf_append, tokensOf_cons, tokensOf_nil]
          have hov := (overlap_is_longest_bounded_suffix current cfg.chunk_overlap).2.1
          omega
      · rw [if_neg hfit] at hp
        refine ih _ _ ?_ p hp hfalse
        rw [tokensOf_append, tokensOf_cons, tokensOf_nil]
        omega

/-- CLAIM C2 (amended) — Every segment produced by `chunk_text` that was not
created by force-splitting an over-long sentence has
`token_count ≤ chunk_size + chunk_overlap`.  (The bound `chunk_size` claimed
by the spec fails: a chunk seeded with overlap sentences can exceed
`chunk_size`, see the counterexample.) -/
theorem chunk_token_bound (cfg : ChunkerCfg) (sentences : List Sentence)
    (p : Chunk × Bool) (hp : p ∈ chunkTextTagged cfg sentences) (hun : p.2 = false) :
    p.1.token_count ≤ cfg.chunk_size + cfg.chunk_overlap :=
  chunkTextLoop_bound cfg sentences [] 0 (by simp [tokensOf]) p hp hun

/-- Witness for the amended C2 bound at a concrete input. -/
theorem chunk_token_bound_witness :
    (createChunk [[0, 0]] 0, false).1.token_count ≤
      (ChunkerCfg.mk 3 2).chunk_size + (ChunkerCfg.mk 3 2).chunk_overlap :=
  chunk_token_bound (ChunkerCfg.mk 3 2) [[0, 0]] (createChunk [[0, 0]] 0, false)
    (by decide) (by decide)

/-- COUNTEREXAMPLE to C2 as stated: with `chunk_size = 3` and
`chunk_overlap = 2`, the two-sentence input whose sentences hold 2 tokens
each produces a second chunk of 4 tokens — above `chunk_size` — that was not
created by force-splitting (its tag is `false`): the overlap seeding makes
the buffer `overlap ++ [new sentence]` exceed `chunk_size`. -/
theorem chunk_token_bound_counterexample :
    ∃ p ∈ chunkTextTagged (ChunkerCfg.mk 3 2) [[0, 0], [1, 1]],
      p.2 = false ∧ (ChunkerCfg.mk 3 2).chunk_size < p.1.token_count := by
  decide

/-- CLAIM C3 — For a sentence whose token count exceeds `chunk_size` (with
`chunk_overlap < chunk_size`), the forced sub-chunks of
`_split_long_sentence` are the token windows `tokens[j*step : j*step +
chunk_size]` advancing by `step = chunk_size - chunk_overlap` per window
(first conjunct), and every token position of the sentence is covered by one
of the windows, at offset `k - j*step` inside window `j` — so no token is
dropped (second conjunct). -/
theorem splitLongSentence_covers (cfg : ChunkerCfg) (sentence : Sentence)
    (hov : cfg.chunk_overlap < cfg.chunk_size) (_hlen : cfg.chunk_size < sentence.length) :
    (∀ j, j < (splitLongSentence cfg sentence).length →
      (splitLongSentence cfg sentence)[j]? =
        some ((sentence.drop (j * (cfg.chunk_size - cfg.chunk_overlap))).take cfg.chunk_size)) ∧
    (∀ k, k < sentence.length →
      ∃ j, j < (splitLongSentence cfg sentence).length ∧
        j * (cfg.chunk_size - cfg.chunk_overlap) ≤ k ∧
        ((sentence.drop (j * (cfg.chunk_size - cfg.chunk_overlap))).take
            cfg.chunk_size)[k - j * (cfg.chunk_size - cfg.chunk_overlap)]? =
          sentence[k]?) := by
  have hstep : 0 < cfg.chunk_size - cfg.chunk_overlap := Nat.sub_pos_of_lt hov
  constructor
  · intro j hj
    have hjlen : j < (sentence.length + (cfg.chunk_size - cfg.chunk_overlap) - 1) /
        (cfg.chunk_size - cfg.chunk_overlap) := by
      simpa [splitLongSentence, windowStarts] using hj
    simp [splitLongSentence, windowStarts, List.getElem?_map, List.getElem?_range, hjlen]
  · intro k hk
    refine ⟨k / (cfg.chunk_size - cfg.chunk_overlap), ?_,
      Nat.div_mul_le_self k (cfg.chunk_size - cfg.chunk_overlap), ?_⟩
    · have h1 : k / (cfg.chunk_size - cfg.chunk_overlap) ≤
          (sentence.length - 1) / (cfg.chunk_size - cfg.chunk_overlap) :=
        Nat.div_le_div_right (by omega)
      have h2 : (sentence.length + (cfg.chunk_size - cfg.chunk_overlap) - 1) /
          (cfg.chunk_size - cfg.chunk_overlap) =
          (sentence.length - 1) / (cfg.chunk_size - cfg.chunk_overlap) + 1 := by
        rw [show sentence.length + (cfg.chunk_size - cfg.chunk_overlap) - 1 =
          (sentence.length - 1) + (cfg.chunk_size - cfg.chunk_overlap) by omega]
        exact Nat.add_div_right _ hstep
      simp only [splitLongSentence, windowStarts, List.length_map, List.length_range]
      omega
    · have h3 := Nat.div_add_mod k (cfg.chunk_size - cfg.chunk_overlap)
      rw [Nat.mul_comm] at h3
      have hmlt : k % (cfg.chunk_size - cfg.chunk_overlap) < cfg.chunk_size - cfg.chunk_overlap :=
        Nat.mod_lt k hstep
      have hlt : k - k / (cfg.chunk_size - cfg.chunk_overlap) *
          (cfg.chunk_size - cfg.chunk_overlap) < cfg.chunk_size := by
        have hsle : cfg.chunk_size - cfg.chunk_overlap ≤ cfg.chunk_size := Nat.sub_le _ _
        omega
      rw [List.getElem?_take_of_lt hlt, List.getElem?_drop]
      congr 1
      have hle := Nat.div_mul_le_self k (cfg.chunk_size - cfg.chunk_overlap)
      omega

/-- Witness for C3 at a concrete input (`chunk_size = 2`, `chunk_overlap = 1`,
a 3-token sentence): token position 2 is covered by one of the windows. -/
theorem splitLongSentence_covers_witness :
    ∃ j, j < (splitLongSentence (ChunkerCfg.mk 2 1) [0, 1, 2]).length ∧
      j * ((ChunkerCfg.mk 2 1).chunk_size - (ChunkerCfg.mk 2 1).chunk_overlap) ≤ 2 ∧
      ((([0, 1, 2] : Sentence).drop
          (j * ((ChunkerCfg.mk 2 1).chunk_size - (ChunkerCfg.mk 2 1).chunk_overlap))).take
          (ChunkerCfg.mk 2 1).chunk_size)[2 -
            j * ((ChunkerCfg.mk 2 1).chunk_size - (ChunkerCfg.mk 2 1).chunk_overlap)]? =
        ([0, 1, 2] : Sentence)[2]? :=
  (splitLongSentence_covers (ChunkerCfg.mk 2 1) [0, 1, 2] (by decide) (by decide)).2 2 (by decide)

/-! ## Reranker (backend/rag/reranker.py) -/

/-- A retrieval candidate dict as produced by `Retriever.retrieve`
(retriever.py lines 104-120) and consumed by `Reranker.rerank`:
`score` is the vector similarity, `rerank_score` the cross-encoder score
(absent until the reranker sets it).  Scores are embedded as rationals. -/
structure RChunk where
  id : String := ""
  score : ℚ := 0
  content : String := ""
  chapter_number : Option Nat := none
  chapter_title : String := ""
  section_name : String := ""
  paragraph_index : Option Nat := none
  token_count : Nat := 0
  chunk_id : String := ""
  rerank_score : Option ℚ := none
deriving DecidableEq, Inhabited

/-- Python's `not query or not query.strip()` guard (reranker.py line 79,
retriever.py line 83): the string is empty or holds only whitespace. -/
def isBlank (s : String) : Bool := s.data.all (·.isWhitespace)

/-- The sort key `lambda x: x["rerank_score"]` of reranker.py line 98 (on the
successful path every chunk has just been given a `rerank_score`). -/
def rerankKey (c : RChunk) : ℚ := c.rerank_score.getD 0

/-- Descending comparison on `rerank_score` (`sorted(..., reverse=True)`). -/
def rerankRel (a b : RChunk) : Prop := rerankKey b ≤ rerankKey a

instance : DecidableRel rerankRel :=
  fun a b => inferInstanceAs (Decidable (rerankKey b ≤ rerankKey a))

instance : IsTotal RChunk rerankRel := ⟨fun a b => le_total (rerankKey b) (rerankKey a)⟩

instance : IsTrans RChunk rerankRel := ⟨fun _ _ _ hab hbc => le_trans hbc hab⟩

/-- Embeds `Reranker.rerank` (reranker.py lines 46-114).  The cross-encoder
`self.model.predict` is an external collaborator: `model` is `.ok score`
when prediction succeeds with pair scores `score query content`, and
`.error ()` when anything in the `try` block raises (then the code falls
back to `chunks[:n]`, the original similarity order).  `top_n` is the
resolved `n`. -/
def rerank (model : Except Unit (String → String → ℚ)) (query : String)
    (chunks : List RChunk) (top_n : Nat) : List RChunk :=
  if chunks.isEmpty then []
  else if isBlank query then chunks
  else
    match model with
    | .error _ => chunks.take top_n
    | .ok score =>
      (List.insertionSort rerankRel
        (chunks.map fun c => { c with rerank_score := some (score query c.content) })).take top_n

/-- Descending comparison on `rerank_score` between positions of a store. -/
def rerankIdxRel (store : List RChunk) (i j : Nat) : Prop :=
  rerankKey (store.getD j default) ≤ rerankKey (store.getD i default)

instance (store : List RChunk) : DecidableRel (rerankIdxRel store) :=
  fun _ _ => inferInstanceAs (Decidable (_ ≤ _))

instance (store : List RChunk) : IsTotal Nat (rerankIdxRel store) :=
  ⟨fun _ _ => le_total _ _⟩

instance (store : List RChunk) : IsTrans Nat (rerankIdxRel store) :=
  ⟨fun _ _ _ hab hbc => le_trans hbc hab⟩

/-- Heap-level embedding of `Reranker.rerank` making the in-place mutation of
reranker.py lines 93-101 observable: the first component is the caller's
candidate list after the loop `chunk["rerank_score"] = float(score)` ran over
ALL candidates, and the second component gives the returned (sorted,
truncated) list as positions into that store — Python returns aliases of the
very dict objects the caller passed, which positions model faithfully. -/
def rerankMut (score : String → String → ℚ) (query : String)
    (chunks : List RChunk) (top_n : Nat) : List RChunk × List Nat :=
  if chunks.isEmpty then (chunks, [])
  else if isBlank query then (chunks, List.range chunks.length)
  else
    ((chunks.map fun c => { c with rerank_score := some (score query c.content) }),
      (List.insertionSort
        (rerankIdxRel (chunks.map fun c => { c with rerank_score := some (score query c.content) }))
        (List.range chunks.length)).take top_n)

/-- Every chunk in `rerank`'s output carries the similarity score of one of
the input chunks (reranking rescores and reorders but never invents
candidates). -/
theorem rerank_score_mem (model : Except Unit (String → String → ℚ)) (query : String)
    (chunks : List RChunk) (top_n : Nat) (c : RChunk)
    (hc : c ∈ rerank model query chunks top_n) : ∃ c' ∈ chunks, c.score = c'.score := by
  rw [rerank.eq_def] at hc
  by_cases he : chunks.isEmpty
  · rw [if_pos he] at hc
    exact absurd hc (List.not_mem_nil c)
  · rw [if_neg he] at hc
    by_cases hq : isBlank query = true
    · rw [if_pos hq] at hc
      exact ⟨c, hc, rfl⟩
    · rw [if_neg hq] at hc
      match model with
      | .error _ => exact ⟨c, List.mem_of_mem_take hc, rfl⟩
      | .ok score =>
        have h1 : c ∈ List.insertionSort rerankRel
            (chunks.map fun c => { c with rerank_score := some (score query c.content) }) :=
          List.mem_of_mem_take hc
        have h2 : c ∈ chunks.map fun c => { c with rerank_score := some (score query c.content) } :=
          (List.perm_insertionSort rerankRel _).mem_iff.mp h1
        obtain ⟨c', hc', rfl⟩ := List.mem_map.mp h2
        exact ⟨c', hc', rfl⟩

/-- CLAIM C5 (amended) — For every query that is non-empty after stripping
whitespace, when the scoring model succeeds, `rerank` returns a list sorted
by `rerank_score` descending whose length is `min(top_n, len(candidates))`;
empty candidate input yields empty output.  (For an empty/whitespace query
the code returns the input list unchanged, untruncated — see the
counterexample.) -/
theorem rerank_sorted_truncated (score : String → String → ℚ) (query : String)
    (chunks : List RChunk) (top_n : Nat) (hq : ¬ isBlank query = true) :
    (rerank (.ok score) query chunks top_n).length = min top_n chunks.length ∧
    List.Sorted rerankRel (rerank (.ok score) query chunks top_n) ∧
    rerank (.ok score) query [] top_n = [] := by
  refine ⟨?_, ?_, rfl⟩
  · rw [rerank.eq_def]
    by_cases he : chunks.isEmpty
    · rw [if_pos he, List.isEmpty_iff.mp he]
      simp
    · rw [if_neg he, if_neg hq]
      rw [List.length_take, (List.perm_insertionSort rerankRel _).length_eq, List.length_map]
  · rw [rerank.eq_def]
    by_cases he : chunks.isEmpty
    · rw [if_pos he]
      exact List.sorted_nil
    · rw [if_neg he, if_neg hq]
      exact (List.sorted_insertionSort rerankRel _).sublist (List.take_sublist _ _)

/-- Witness for the amended C5 at a concrete input. -/
theorem rerank_sorted_truncated_witness :
    (rerank (.ok fun _ _ => (0 : ℚ)) "q" [({ score := 1 } : RChunk)] 3).length =
      min 3 ([({ score := 1 } : RChunk)] : List RChunk).length ∧
    List.Sorted rerankRel (rerank (.ok fun _ _ => (0 : ℚ)) "q" [({ score := 1 } : RChunk)] 3) ∧
    rerank (.ok fun _ _ => (0 : ℚ)) "q" [] 3 = [] :=
  rerank_sorted_truncated (fun _ _ => 0) "q" [{ score := 1 }] 3 (by decide)

/-- COUNTEREXAMPLE to C5 as stated: with the empty query, two candidates and
`top_n = 1`, `rerank` returns both input candidates unchanged (reranker.py
lines 79-81), so its length is 2, not `min(top_n, len(candidates)) = 1`. -/
theorem rerank_sorted_truncated_counterexample :
    (rerank (.ok fun _ _ => (0 : ℚ)) "" [({} : RChunk), ({ id := "b" } : RChunk)] 1).length ≠
      min 1 ([({} : RChunk), ({ id := "b" } : RChunk)] : List RChunk).length := by
  decide

/-- CLAIM C6 — For every non-empty candidate list (and a query the model was
actually invoked on, i.e. non-whitespace), if the cross-encoder scoring
raises, `rerank` does not propagate the error: it returns the first `top_n`
candidates in their original similarity order (reranker.py lines 110-114). -/
theorem rerank_model_failure (query : String) (chunks : List RChunk) (top_n : Nat)
    (hc : chunks ≠ []) (hq : ¬ isBlank query = true) :
    rerank (.error ()) query chunks top_n = chunks.take top_n := by
  rw [rerank.eq_def, if_neg (by simpa [List.isEmpty_iff] using hc), if_neg hq]

/-- Witness for C6 at a concrete input. -/
theorem rerank_model_failure_witness :
    rerank (.error ()) "q" [({} : RChunk), ({ id := "b" } : RChunk)] 1 =
      ([({} : RChunk), ({ id := "b" } : RChunk)] : List RChunk).take 1 :=
  rerank_model_failure "q" [({} : RChunk), ({ id := "b" } : RChunk)] 1 (by decide) (by decide)

/-- Positions drawn from sorting `List.range m` and truncating stay below
`m`. -/
theorem mem_take_insertionSort_range (r : Nat → Nat → Prop) [DecidableRel r] (m n j : Nat)
    (hj : j ∈ (List.insertionSort r (List.range m)).take n) : j < m :=
  List.mem_range.mp ((List.perm_insertionSort r _).mem_iff.mp (List.mem_of_mem_take hj))

/-- CLAIM C10 — On the successful path (non-empty query, non-empty candidate
list, model succeeds), `rerank` mutates its input in place: position `i` of
the caller's store afterwards holds the caller's `i`-th dict with
`rerank_score` set (or overwritten) for EVERY candidate, including those
beyond the truncated returned list, and every returned element is a position
into that same store (aliasing). -/
theorem rerank_mutates_input (score : String → String → ℚ) (query : String)
    (chunks : List RChunk) (top_n : Nat) (hq : ¬ isBlank query = true) (hc : chunks ≠ []) :
    (rerankMut score query chunks top_n).1.length = chunks.length ∧
    (∀ i, i < chunks.length → ∃ c, chunks[i]? = some c ∧
      (rerankMut score query chunks top_n).1[i]? =
        some { c with rerank_score := some (score query c.content) }) ∧
    (∀ j ∈ (rerankMut score query chunks top_n).2, j < chunks.length) := by
  have he : ¬ chunks.isEmpty := by simpa [List.isEmpty_iff] using hc
  refine ⟨?_, ?_, ?_⟩
  · rw [rerankMut.eq_def, if_neg he, if_neg hq]
    exact List.length_map _ _
  · intro i hi
    refine ⟨chunks[i], List.getElem?_eq_getElem hi, ?_⟩
    rw [rerankMut.eq_def, if_neg he, if_neg hq]
    simp only [List.getElem?_map, List.getElem?_eq_getElem hi, Option.map_some']
  · intro j hj
    rw [rerankMut.eq_def, if_neg he, if_neg hq] at hj
    exact mem_take_insertionSort_range _ _ _ j hj

/-- Witness for C10 at a concrete input. -/
theorem rerank_mutates_input_witness :
    (rerankMut (fun _ _ => (7 : ℚ)) "q" [({} : RChunk), ({ id := "b" } : RChunk)] 1).1.length =
      ([({} : RChunk), ({ id := "b" } : RChunk)] : List RChunk).length ∧
    (∀ i, i < ([({} : RChunk), ({ id := "b" } : RChunk)] : List RChunk).length → ∃ c,
      ([({} : RChunk), ({ id := "b" } : RChunk)] : List RChunk)[i]? = some c ∧
      (rerankMut (fun _ _ => (7 : ℚ)) "q" [({} : RChunk), ({ id := "b" } : RChunk)] 1).1[i]? =
        some { c with rerank_score := some ((fun _ _ => (7 : ℚ)) "q" c.content) }) ∧
    (∀ j ∈ (rerankMut (fun _ _ => (7 : ℚ)) "q" [({} : RChunk), ({ id := "b" } : RChunk)] 1).2,
      j < ([({} : RChunk), ({ id := "b" } : RChunk)] : List RChunk).length) :=
  rerank_mutates_input (fun _ _ => 7) "q" [({} : RChunk), ({ id := "b" } : RChunk)] 1
    (by decide) (by decide)

/-! ## Answer orchestrator (backend/agents/rag_agent.py) -/

/-- The classifier labels (`QueryClassifier.classify`,
query_classifier.py lines 53-86; it never raises — any failure is caught and
defaults to `IN_SCOPE`). -/
inductive Classification
  | IN_SCOPE
  | OUT_OF_SCOPE
deriving DecidableEq

/-- A citation dict (`RAGAgent._extract_citations`, rag_agent.py lines
210-245): `sectionName` embeds the optional `"section"` key (present only
for a truthy section name), `paragraph` the optional `"paragraph"` key. -/
structure Citation where
  chapter : String
  sectionName : Option String
  paragraph : Option Nat
deriving DecidableEq

/-- The result dict of `generate_answer` / `generate_answer_with_fallback`:
`answer_type` is absent (`none`) until `generate_answer_with_fallback` sets
`"BOOK"`, `"GENERAL_AI"` or `"ERROR"`. -/
structure AnswerResult where
  answer : String
  citations : List Citation
  retrieval_score : ℚ
  chunks_used : Nat
  fallback : Bool
  answer_type : Option String
deriving DecidableEq

/-- The remote calls the orchestrator makes, recorded in order so that the
absence of a vector-index search is observable. -/
inductive CallEvent
  | classifyCall
  | retrieveCall
  | rerankCall
  | llmCall
  | llmFallbackCall
deriving DecidableEq

/-- Oracle results of the orchestrator's collaborators for one request:
`classify` the classifier label, `retrieve` the vector search outcome
(`.error` when embedding or the index raises), `rerankModel` the
cross-encoder as in `rerank`, `llm` the grounded completion for (query,
context), `llmFallback` the general-purpose completion, and
`confidenceThreshold` the setting `RETRIEVAL_CONFIDENCE_THRESHOLD`. -/
structure Env where
  classify : String → Classification
  retrieve : String → Except Unit (List RChunk)
  rerankModel : Except Unit (String → String → ℚ)
  llm : String → String → Except Unit String
  llmFallback : String → Except Unit String
  confidenceThreshold : ℚ

/-- Embeds `RAGAgent._assemble_context` (rag_agent.py lines 134-163). -/
def assembleContext (chunks : List RChunk) : String :=
  String.intercalate "\n" <| chunks.map fun c =>
    ("[" ++ c.chapter_title ++
        (if c.section_name = "" then "" else " - " ++ c.section_name) ++ "]") ++
      "\n" ++ c.content ++ "\n"

/-- The `Citation` derived from one chunk (rag_agent.py lines 232-238). -/
def citationOf (c : RChunk) : Citation :=
  { chapter := c.chapter_title
    sectionName := if c.section_name = "" then none else some c.section_name
    paragraph := c.paragraph_index }

/-- Loop of `RAGAgent._extract_citations` (rag_agent.py lines 220-241) with
its `seen_citations` set of `(chapter_title, section_name)` keys. -/
def extractCitationsGo : List RChunk → List (String × String) → List Citation
  | [], _ => []
  | c :: rest, seen =>
    if (c.chapter_title, c.section_name) ∈ seen then extractCitationsGo rest seen
    else citationOf c :: extractCitationsGo rest ((c.chapter_title, c.section_name) :: seen)

/-- Embeds `RAGAgent._extract_citations` (rag_agent.py lines 210-245). -/
def extractCitations (chunks : List RChunk) : List Citation :=
  extractCitationsGo chunks []

/-- The fixed fallback dict of `RAGAgent._fallback_response` (rag_agent.py
lines 247-260). -/
def fallbackResponse : AnswerResult :=
  { answer := "I cannot answer this from the book content. This information is not covered in \x27Physical AI & Humanoid Robotics Essentials\x27."
    citations := []
    retrieval_score := 0
    chunks_used := 0
    fallback := true
    answer_type := none }

/-- The fixed apology of `RAGAgent._openai_fallback`'s except-branch
(rag_agent.py line 367). -/
def apologyAnswer : String :=
  "I apologize, but I\x27m unable to answer that question right now. Please try again later."

/-- Embeds `RAGAgent._openai_fallback` (rag_agent.py lines 320-373): on a
successful completion the result is labelled `GENERAL_AI`; when the OpenAI
call raises, the exception is caught and the fixed apology result labelled
`ERROR` is returned — no exception escapes (the embedding is a total
function). -/
def openaiFallback (env : Env) (query : String) : AnswerResult :=
  match env.llmFallback query with
  | .ok ans =>
    { answer := ans, citations := [], retrieval_score := 0, chunks_used := 0,
      fallback := true, answer_type := some "GENERAL_AI" }
  | .error _ =>
    { answer := apologyAnswer, citations := [], retrieval_score := 0, chunks_used := 0,
      fallback := true, answer_type := some "ERROR" }

/-- Embeds `RAGAgent.generate_answer` (rag_agent.py lines 55-132) together
with the trace of remote calls it performs.  A raised retrieval or LLM error
is re-raised (`.error`); `top_k = 10` and the chapter filter are folded into
`env.retrieve`, and `rerank` is invoked with `top_n = 5` as at line 98. -/
def generateAnswerT (env : Env) (query : String) :
    Except Unit AnswerResult × List CallEvent :=
  match env.retrieve query with
  | .error e => (.error e, [.retrieveCall])
  | .ok retrieved =>
    if retrieved.isEmpty then (.ok fallbackResponse, [.retrieveCall])
    else
      match rerank env.rerankModel query retrieved 5 with
      | [] => (.ok fallbackResponse, [.retrieveCall, .rerankCall])
      | top :: rest =>
        if top.score < env.confidenceThreshold then
          (.ok fallbackResponse, [.retrieveCall, .rerankCall])
        else
          match env.llm query (assembleContext (top :: rest)) with
          | .error e => (.error e, [.retrieveCall, .rerankCall, .llmCall])
          | .ok ans =>
            (.ok { answer := ans
                   citations := extractCitations (top :: rest)
                   retrieval_score := top.score
                   chunks_used := (top :: rest).length
                   fallback := false
                   answer_type := none },
             [.retrieveCall, .rerankCall, .llmCall])

/-- The result of `RAGAgent.generate_answer` alone. -/
def generate_answer (env : Env) (query : String) : Except Unit AnswerResult :=
  (generateAnswerT env query).1

/-- Embeds `RAGAgent.generate_answer_with_fallback` (rag_agent.py lines
262-318) with its call trace: classify; `OUT_OF_SCOPE` goes straight to the
OpenAI fallback with no retrieval; otherwise run the RAG pipeline, and fall
back when it raises, when it returned its fallback response, or when
`retrieval_score < 0.5`; on success label the result `BOOK`. -/
def generateAnswerWithFallbackT (env : Env) (query : String) :
    AnswerResult × List CallEvent :=
  match env.classify query with
  | .OUT_OF_SCOPE => (openaiFallback env query, [.classifyCall, .llmFallbackCall])
  | .IN_SCOPE =>
    match generateAnswerT env query with
    | (.error _, evs) =>
      (openaiFallback env query, .classifyCall :: evs ++ [.llmFallbackCall])
    | (.ok result, evs) =>
      if result.fallback || result.retrieval_score < (1 : ℚ) / 2 then
        (openaiFallback env query, .classifyCall :: evs ++ [.llmFallbackCall])
      else
        ({ result with answer_type := some "BOOK" }, .classifyCall :: evs)

/-- The public answer entry point: the result dict of
`generate_answer_with_fallback`. -/
def generate_answer_with_fallback (env : Env) (query : String) : AnswerResult :=
  (generateAnswerWithFallbackT env query).1

/-- Both branches of the OpenAI fallback return `fallback = true`. -/
theorem openaiFallback_fallback (env : Env) (query : String) :
    (openaiFallback env query).fallback = true := by
  cases hfb : env.llmFallback query <;> simp [openaiFallback, hfb]

/-- Neither branch of the OpenAI fallback is labelled `BOOK`. -/
theorem openaiFallback_not_book (env : Env) (query : String) :
    (openaiFallback env query).answer_type ≠ some "BOOK" := by
  cases hfb : env.llmFallback query <;> simp [openaiFallback, hfb]

/-- Under an all-below-threshold retrieval, `generate_answer` returns its
fallback response: whatever the reranker did, the top reranked candidate's
original similarity score is the score of some retrieved candidate, hence
below the configured threshold (rag_agent.py lines 105-111). -/
theorem generateAnswerT_low_confidence (env : Env) (query : String)
    (retrieved : List RChunk) (hr : env.retrieve query = .ok retrieved)
    (hlow : ∀ c ∈ retrieved, c.score < env.confidenceThreshold) :
    (generateAnswerT env query).1 = .ok fallbackResponse := by
  rw [generateAnswerT.eq_def, hr]
  dsimp only
  by_cases he : retrieved.isEmpty
  · rw [if_pos he]
  · rw [if_neg he]
    cases hrk : rerank env.rerankModel query retrieved 5 with
    | nil => rfl
    | cons top rest =>
      have htop : top.score < env.confidenceThreshold := by
        obtain ⟨c', hc', heq⟩ := rerank_score_mem env.rerankModel query retrieved 5 top
          (hrk ▸ List.mem_cons_self top rest)
        rw [heq]
        exact hlow c' hc'
      dsimp only
      rw [if_pos htop]

/-- CLAIM C1 — For every query whose retrieval succeeds with all similarity
scores below the configured confidence threshold (in particular whenever the
top similarity score is), the public entry point returns `fallback = true`
and an `answer_type` that is not the book-grounded `"BOOK"` label. -/
theorem confidence_gate_forces_fallback (env : Env) (query : String)
    (retrieved : List RChunk) (hr : env.retrieve query = .ok retrieved)
    (hlow : ∀ c ∈ retrieved, c.score < env.confidenceThreshold) :
    (generate_answer_with_fallback env query).fallback = true ∧
    (generate_answer_with_fallback env query).answer_type ≠ some "BOOK" := by
  have hof1 := openaiFallback_fallback env query
  have hof2 := openaiFallback_not_book env query
  rw [generate_answer_with_fallback, generateAnswerWithFallbackT.eq_def]
  cases hcl : env.classify query with
  | OUT_OF_SCOPE => exact ⟨hof1, hof2⟩
  | IN_SCOPE =>
    have hgen := generateAnswerT_low_confidence env query retrieved hr hlow
    rcases hT : generateAnswerT env query with ⟨r, evs⟩
    rw [hT] at hgen
    simp only at hgen
    subst hgen
    simp only [hT]
    have : fallbackResponse.fallback = true := rfl
    simp [this]
    exact ⟨hof1, hof2⟩

/-- Environment for the C1 witness: one retrieved candidate with similarity
0, threshold 1. -/
def envLowConf : Env :=
  { classify := fun _ => .IN_SCOPE
    retrieve := fun _ => .ok [{ score := 0 }]
    rerankModel := .ok fun _ _ => 0
    llm := fun _ _ => .ok "a"
    llmFallback := fun _ => .ok "g"
    confidenceThreshold := 1 }

/-- Witness for C1 at a concrete input. -/
theorem confidence_gate_forces_fallback_witness :
    (generate_answer_with_fallback envLowConf "q").fallback = true ∧
    (generate_answer_with_fallback envLowConf "q").answer_type ≠ some "BOOK" :=
  confidence_gate_forces_fallback envLowConf "q" [{ score := 0 }] rfl (by decide)

/-- CLAIM C8 — A query the classifier labels `OUT_OF_SCOPE` never triggers a
vector-index search: the orchestrator's call trace contains no retrieve call
(rag_agent.py lines 290-297 route straight to `_openai_fallback`). -/
theorem out_of_scope_skips_retrieval (env : Env) (query : String)
    (h : env.classify query = .OUT_OF_SCOPE) :
    CallEvent.retrieveCall ∉ (generateAnswerWithFallbackT env query).2 := by
  rw [generateAnswerWithFallbackT.eq_def, h]
  show CallEvent.retrieveCall ∉ [CallEvent.classifyCall, CallEvent.llmFallbackCall]
  decide

/-- Environment for the C8 witness. -/
def envOutScope : Env :=
  { classify := fun _ => .OUT_OF_SCOPE
    retrieve := fun _ => .ok []
    rerankModel := .error ()
    llm := fun _ _ => .error ()
    llmFallback := fun _ => .ok "g"
    confidenceThreshold := 0 }

/-- Witness for C8 at a concrete input. -/
theorem out_of_scope_skips_retrieval_witness :
    CallEvent.retrieveCall ∉ (generateAnswerWithFallbackT envOutScope "q").2 :=
  out_of_scope_skips_retrieval envOutScope "q" rfl

/-- CLAIM C9 — If the language-model call during the general-purpose
fallback raises, `_openai_fallback` returns the fixed apology answer
labelled `ERROR` with empty citations; no exception escapes, since the
embedding is a total function (the except-branch of rag_agent.py lines
364-373 swallows the error). -/
theorem fallback_llm_failure_is_error (env : Env) (query : String)
    (h : env.llmFallback query = .error ()) :
    openaiFallback env query =
      { answer := apologyAnswer, citations := [], retrieval_score := 0, chunks_used := 0,
        fallback := true, answer_type := some "ERROR" } := by
  rw [openaiFallback.eq_def, h]

/-- Environment for the C9 witness. -/
def envLlmDown : Env :=
  { classify := fun _ => .OUT_OF_SCOPE
    retrieve := fun _ => .ok []
    rerankModel := .error ()
    llm := fun _ _ => .error ()
    llmFallback := fun _ => .error ()
    confidenceThreshold := 0 }

/-- Witness for C9 at a concrete input. -/
theorem fallback_llm_failure_is_error_witness :
    openaiFallback envLlmDown "q" =
      { answer := apologyAnswer, citations := [], retrieval_score := 0, chunks_used := 0,
        fallback := true, answer_type := some "ERROR" } :=
  fallback_llm_failure_is_error envLlmDown "q" rfl

/-! ## Batch ingestion (backend/db/qdrant_client.py) -/

/-- Outcome of the per-batch attempt loop of `batch_upsert_with_retry`
(qdrant_client.py lines 258-278): `ok` — an attempt succeeded (`break`);
`fail` — the last attempt failed and the exception is re-raised; `skip` —
the loop body never ran (only possible for `max_retries = 0`). -/
inductive BatchOutcome
  | ok
  | fail
  | skip
deriving DecidableEq

/-- Embeds the attempt loop `for attempt in range(1, max_retries + 1)` of
`batch_upsert_with_retry` for one batch.  `fails a` says whether the
`upsert_points` call raises at attempt `a`.  Returns the outcome, the list
of sleeps performed (`time.sleep(retry_delay * attempt)` happens only after
a failed attempt that is not the last) and the number of attempts made. -/
def runAttempts (fails : Nat → Bool) (retryDelay : ℚ) (maxRetries : Nat) :
    List Nat → BatchOutcome × List ℚ × Nat
  | [] => (.skip, [], 0)
  | a :: rest =>
    if fails a then
      if a < maxRetries then
        ((runAttempts fails retryDelay maxRetries rest).1,
          retryDelay * (a : ℚ) :: (runAttempts fails retryDelay maxRetries rest).2.1,
          (runAttempts fails retryDelay maxRetries rest).2.2 + 1)
      else (.fail, [], 1)
    else (.ok, [], 1)

/-- The batches `points[batch_idx : batch_idx + batch_size]` of
qdrant_client.py line 255, each as (zero-based batch position, batch
length); the points themselves are summarised by their count. -/
def batchList (numPoints batchSize : Nat) : List (Nat × Nat) :=
  (windowStarts numPoints batchSize).enum.map fun p => (p.1, min batchSize (numPoints - p.2))

/-- Batch loop of `batch_upsert_with_retry` (qdrant_client.py lines
254-284) over the remaining batches and the running `total_upserted`.
`fails b a` says whether upserting batch `b` raises at attempt `a`.  The
first component is the call's result: `.ok total` when every batch
committed, `.error ()` when a batch exhausted its attempts and the
underlying exception was re-raised (the exception object carries no count).
The second component records, per processed batch, the attempts made and
the sleeps performed. -/
def buGo (fails : Nat → Nat → Bool) (retryDelay : ℚ) (maxRetries : Nat) :
    List (Nat × Nat) → Nat → Except Unit Nat × List (Nat × List ℚ)
  | [], total => (.ok total, [])
  | (bi, blen) :: rest, total =>
    match runAttempts (fails bi) retryDelay maxRetries (List.range' 1 maxRetries) with
    | (.fail, ds, att) => (.error (), [(att, ds)])
    | (.ok, ds, att) =>
      ((buGo fails retryDelay maxRetries rest (total + blen)).1,
        (att, ds) :: (buGo fails retryDelay maxRetries rest (total + blen)).2)
    | (.skip, ds, att) =>
      ((buGo fails retryDelay maxRetries rest total).1,
        (att, ds) :: (buGo fails retryDelay maxRetries rest total).2)

/-- Embeds `batch_upsert_with_retry` (qdrant_client.py lines 224-284). -/
def batchUpsertWithRetry (fails : Nat → Nat → Bool)
    (numPoints batchSize maxRetries : Nat) (retryDelay : ℚ) :
    Except Unit Nat × List (Nat × List ℚ) :=
  buGo fails retryDelay maxRetries (batchList numPoints batchSize) 0

/-- Modelled from the spec's words "bounded retries and exponential backoff
per batch" / "exponentially increasing delay": successive sleep delays grow
by a constant factor greater than 1. -/
def ExponentiallyIncreasing (l : List ℚ) : Prop :=
  ∃ r : ℚ, 1 < r ∧ ∀ i, i + 1 < l.length → l.getD (i + 1) 0 = r * l.getD i 0

/-- The sleeps of one batch are the linearly growing prefix
`retry_delay * 1, retry_delay * 2, ...` with fewer entries than attempts
allowed, and at most `max_retries` attempts are made. -/
theorem runAttempts_spec (fails : Nat → Bool) (rd : ℚ) (mr : Nat) :
    ∀ (len s : Nat), 0 < len → s + len = mr + 1 →
      (runAttempts fails rd mr (List.range' s len)).2.2 ≤ len ∧
      ∃ k, s + k ≤ mr ∧
        (runAttempts fails rd mr (List.range' s len)).2.1 =
          (List.range' s k).map (fun a : Nat => rd * (a : ℚ)) := by
  intro len
  induction len with
  | zero => intro s h0 _; exact absurd h0 (Nat.lt_irrefl 0)
  | succ n ih =>
    intro s h0 hsum
    rw [List.range'_succ, runAttempts]
    by_cases hf : fails s = true
    · rw [if_pos hf]
      by_cases hlt : s < mr
      · have hn : 0 < n := by omega
        obtain ⟨ha, k', hk', hds⟩ := ih (s + 1) hn (by omega)
        rw [if_pos hlt]
        refine ⟨?_, k' + 1, by omega, ?_⟩
        · dsimp only
          omega
        · dsimp only
          rw [hds, List.range'_succ, List.map_cons]
      · rw [if_neg hlt]
        exact ⟨Nat.succ_le_succ (Nat.zero_le n), 0, by omega, by simp⟩
    · rw [if_neg hf]
      exact ⟨Nat.succ_le_succ (Nat.zero_le n), 0, by omega, by simp⟩

/-- If every attempt of the range fails, the attempt loop ends in `fail`
(the re-raise at qdrant_client.py line 278). -/
theorem runAttempts_all_fail (fails : Nat → Bool) (rd : ℚ) (mr : Nat) :
    ∀ (len s : Nat), 0 < len → s + len = mr + 1 →
      (∀ a, s ≤ a → a ≤ mr → fails a = true) →
      (runAttempts fails rd mr (List.range' s len)).1 = .fail := by
  intro len
  induction len with
  | zero => intro s h0 _ _; exact absurd h0 (Nat.lt_irrefl 0)
  | succ n ih =>
    intro s h0 hsum hall
    rw [List.range'_succ, runAttempts]
    have hfs : fails s = true := hall s (Nat.le_refl s) (by omega)
    rw [if_pos hfs]
    by_cases hlt : s < mr
    · have hn : 0 < n := by omega
      rw [if_pos hlt]
      dsimp only
      exact ih (s + 1) hn (by omega) (fun a ha hb => hall a (by omega) hb)
    · rw [if_neg hlt]

/-- A non-empty attempt range never ends in `skip`. -/
theorem runAttempts_ne_skip (fails : Nat → Bool) (rd : ℚ) (mr : Nat) :
    ∀ (len s : Nat), 0 < len → s + len = mr + 1 →
      (runAttempts fails rd mr (List.range' s len)).1 ≠ .skip := by
  intro len
  induction len with
  | zero => intro s h0 _; exact absurd h0 (Nat.lt_irrefl 0)
  | succ n ih =>
    intro s h0 hsum
    rw [List.range'_succ, runAttempts]
    by_cases hf : fails s = true
    · rw [if_pos hf]
      by_cases hlt : s < mr
      · have hn : 0 < n := by omega
        rw [if_pos hlt]
        dsimp only
        exact ih (s + 1) hn (by omega)
      · rw [if_neg hlt]
        intro h
        exact BatchOutcome.noConfusion h
    · rw [if_neg hf]
      intro h
      exact BatchOutcome.noConfusion h

/-- Per-batch retry accounting of the whole batch loop: each processed batch
made at most `max_retries` attempts, sleeping the linear sequence
`retry_delay * attempt` strictly fewer than `max_retries` times. -/
theorem buGo_log (fails : Nat → Nat → Bool) (rd : ℚ) (mr : Nat) (hmr : 0 < mr) :
    ∀ (batches : List (Nat × Nat)) (total : Nat),
      ∀ p ∈ (buGo fails rd mr batches total).2,
        p.1 ≤ mr ∧ ∃ k, k < mr ∧ p.2 = (List.range' 1 k).map (fun a : Nat => rd * (a : ℚ)) := by
  intro batches
  induction batches with
  | nil => intro total p hp; simp [buGo] at hp
  | cons batch rest ih =>
    obtain ⟨bi, blen⟩ := batch
    intro total p hp
    have hspec := runAttempts_spec (fails bi) rd mr mr 1 hmr (by omega)
    rcases hA : runAttempts (fails bi) rd mr (List.range' 1 mr) with ⟨o, ds, att⟩
    rw [hA] at hspec
    dsimp only at hspec
    obtain ⟨h1, k, hk, h2⟩ := hspec
    rw [buGo, hA] at hp
    cases o with
    | fail =>
      dsimp only at hp
      rcases List.mem_singleton.mp hp with rfl
      exact ⟨h1.trans (Nat.le_refl mr), k, by omega, h2⟩
    | ok =>
      dsimp only at hp
      rcases List.mem_cons.mp hp with rfl | hp'
      · exact ⟨h1.trans (Nat.le_refl mr), k, by omega, h2⟩
      · exact ih (total + blen) p hp'
    | skip =>
      dsimp only at hp
      rcases List.mem_cons.mp hp with rfl | hp'
      · exact ⟨h1.trans (Nat.le_refl mr), k, by omega, h2⟩
      · exact ih total p hp'

/-- If some batch of the list fails on every allowed attempt, the whole
batch loop aborts with the bare re-raised error. -/
theorem buGo_error_of_fail (fails : Nat → Nat → Bool) (rd : ℚ) (mr : Nat) (hmr : 0 < mr) :
    ∀ (batches : List (Nat × Nat)) (total : Nat),
      (∃ q ∈ batches, ∀ a, 1 ≤ a → a ≤ mr → fails q.1 a = true) →
      (buGo fails rd mr batches total).1 = .error () := by
  intro batches
  induction batches with
  | nil =>
    intro total hq
    obtain ⟨q, hq, _⟩ := hq
    simp at hq
  | cons batch rest ih =>
    obtain ⟨bi, blen⟩ := batch
    intro total hq
    obtain ⟨q, hq, hall⟩ := hq
    rcases hA : runAttempts (fails bi) rd mr (List.range' 1 mr) with ⟨o, ds, att⟩
    cases o with
    | fail => rw [buGo, hA]
    | skip =>
      have hns := runAttempts_ne_skip (fails bi) rd mr mr 1 hmr (by omega)
      rw [hA] at hns
      exact absurd rfl hns
    | ok =>
      rcases List.mem_cons.mp hq with rfl | hq'
      · have hfail := runAttempts_all_fail (fails bi) rd mr mr 1 hmr
          (by omega) (fun a ha hb => hall a ha hb)
        rw [hA] at hfail
        dsimp only at hfail
        exact BatchOutcome.noConfusion hfail
      · rw [buGo, hA]
        dsimp only
        exact ih (total + blen) ⟨q, hq', hall⟩

/-- CLAIM C7 (amended) — In batch ingestion, each batch is attempted at most
`max_retries` times with LINEARLY increasing delay `retry_delay * attempt`
between consecutive attempts (strictly fewer sleeps than attempts), and a
batch that fails all its attempts aborts the whole ingestion by re-raising
the underlying error: the caller receives `.error ()`, which carries no
count of the points committed so far (that count is only logged). -/
theorem batchUpsert_retry_amended (fails : Nat → Nat → Bool)
    (numPoints batchSize maxRetries : Nat) (retryDelay : ℚ) (hmr : 0 < maxRetries) :
    (∀ p ∈ (batchUpsertWithRetry fails numPoints batchSize maxRetries retryDelay).2,
      p.1 ≤ maxRetries ∧
      ∃ k, k < maxRetries ∧
        p.2 = (List.range' 1 k).map (fun a : Nat => retryDelay * (a : ℚ))) ∧
    (∀ b blen, (b, blen) ∈ batchList numPoints batchSize →
      (∀ a, 1 ≤ a → a ≤ maxRetries → fails b a = true) →
      (batchUpsertWithRetry fails numPoints batchSize maxRetries retryDelay).1 = .error ()) := by
  constructor
  · exact buGo_log fails retryDelay maxRetries hmr (batchList numPoints batchSize) 0
  · intro b blen hmem hall
    exact buGo_error_of_fail fails retryDelay maxRetries hmr (batchList numPoints batchSize) 0
      ⟨(b, blen), hmem, hall⟩

/-- Witness for the amended C7 at a concrete input (1 point, batch size 100,
`max_retries = 4`, `retry_delay = 1`, every upsert attempt failing). -/
theorem batchUpsert_retry_amended_witness :
    (∀ p ∈ (batchUpsertWithRetry (fun _ _ => true) 1 100 4 1).2,
      p.1 ≤ 4 ∧
      ∃ k, k < 4 ∧ p.2 = (List.range' 1 k).map (fun a : Nat => (1 : ℚ) * (a : ℚ))) ∧
    (∀ b blen, (b, blen) ∈ batchList 1 100 →
      (∀ a, 1 ≤ a → a ≤ 4 → (fun _ _ => true : Nat → Nat → Bool) b a = true) →
      (batchUpsertWithRetry (fun _ _ => true) 1 100 4 1).1 = .error ()) :=
  batchUpsert_retry_amended (fun _ _ => true) 1 100 4 1 (by decide)

/-- COUNTEREXAMPLE to C7 as stated: with every attempt failing on a single
batch and `max_retries = 4`, `retry_delay = 1`, the run sleeps `[1, 2, 3]` —
a linear, NOT exponentially increasing sequence — and aborts with a bare
`.error ()` that reports no committed count to the caller. -/
theorem batchUpsert_retry_counterexample :
    (batchUpsertWithRetry (fun _ _ => true) 1 100 4 1).1 = .error () ∧
    (batchUpsertWithRetry (fun _ _ => true) 1 100 4 1).2 = [(4, [1, 2, 3])] ∧
    ¬ ExponentiallyIncreasing [1, 2, 3] := by
  refine ⟨rfl, by
    norm_num [batchUpsertWithRetry, buGo, batchList, windowStarts, runAttempts,
      List.range', List.range, List.enum, List.enumFrom, List.range.loop], ?_⟩
  rintro ⟨r, hr, h⟩
  have h0 : (2 : ℚ) = r * 1 := by
    have := h 0 (by norm_num)
    simpa using this
  have h1 : (3 : ℚ) = r * 2 := by
    have := h 1 (by norm_num)
    simpa using this
  rw [mul_one] at h0
  rw [← h0] at h1
  norm_num at h1

end Spec2Proof
